import Mathlib

/-!
Shallow embedding of the conjugate-gradient ptychography solver of the
repository `tekinbicer/libtike-cufft`.  Two Python files implement the solver:
`src/libtike/cufft/ptycho.py` (embedded below in namespace `Ptycho`) and
`src/ptychocg/solver.py` (namespace `Solver`).

Modelling conventions:
* `complex64` scalars are modelled exactly by pairs of rationals (`Cx`);
  `float32` scalars by `ℚ`; device arrays by lists.
* The projection kernels `ptychofft.fwd` / `ptychofft.adj` are imported from a
  compiled CUDA extension that is not part of the repository's Python sources;
  they enter the loop embeddings as opaque function parameters, as do the
  model-specific residual and loss functionals (whose `sqrt`/`exp`/`angle`/
  `log` formulas are transcendental and are embedded separately over `ℝ`/`ℂ`
  near the end of the file).  All loop theorems hold for every instantiation
  of these parameters.
* `cp.max(cp.abs(v))**2` is modelled as the maximum of the squared moduli
  (`maxabs2`), which is equal to it as a real number since squaring is
  monotone on nonnegative reals.
-/

/-- Exact model of a `complex64` value: a pair of rationals. -/
structure Cx where
  re : ℚ
  im : ℚ
deriving DecidableEq, Repr

namespace Cx

def add (a b : Cx) : Cx := ⟨a.re + b.re, a.im + b.im⟩

def sub (a b : Cx) : Cx := ⟨a.re - b.re, a.im - b.im⟩

def neg (a : Cx) : Cx := ⟨-a.re, -a.im⟩

def mul (a b : Cx) : Cx := ⟨a.re * b.re - a.im * b.im, a.re * b.im + a.im * b.re⟩

/-- Complex conjugate (`cp.conj`). -/
def conj (a : Cx) : Cx := ⟨a.re, -a.im⟩

/-- Squared modulus `|a|²` (a rational number). -/
def normSq (a : Cx) : ℚ := a.re ^ 2 + a.im ^ 2

def ofRat (q : ℚ) : Cx := ⟨q, 0⟩

/-- Complex division `a / b = a·conj b / |b|²` (junk value `0/0` entries when
`b = 0`, mirroring the convention that division by zero yields junk). -/
def cdiv (a b : Cx) : Cx :=
  ⟨(a.re * b.re + a.im * b.im) / normSq b, (a.im * b.re - a.re * b.im) / normSq b⟩

end Cx

/-- A device-resident complex array, flattened. -/
abbrev Vec := List Cx

/-- Elementwise array addition. -/
def vadd (a b : Vec) : Vec := List.zipWith Cx.add a b

/-- Elementwise array subtraction. -/
def vsub (a b : Vec) : Vec := List.zipWith Cx.sub a b

/-- Elementwise array negation. -/
def vneg (a : Vec) : Vec := a.map Cx.neg

/-- Multiplication of an array by a complex scalar. -/
def vsmul (c : Cx) (v : Vec) : Vec := v.map (Cx.mul c)

/-- Multiplication of an array by a real (here: rational) scalar, as in
`gamma * d` with a Python float `gamma`. -/
def vsmulQ (q : ℚ) (v : Vec) : Vec := vsmul (Cx.ofRat q) v

/-- Division of an array by a real scalar, as in `... / cp.max(...)**2`. -/
def vdivQ (v : Vec) (q : ℚ) : Vec := v.map (fun z => ⟨z.re / q, z.im / q⟩)

/-- Model of `cp.sum(cp.conj(a) * b)`: the (unnormalized) complex inner product. -/
def cdot (a b : Vec) : Cx :=
  (List.zipWith (fun x y => Cx.mul (Cx.conj x) y) a b).foldr Cx.add ⟨0, 0⟩

/-- Model of `cp.linalg.norm(v)**2`, equal to `Σ |v_i|²` exactly (the float code squares the
Frobenius norm, which is the sum of squared moduli). -/
def vnormSq (v : Vec) : ℚ := (v.map Cx.normSq).sum

/-- Model of `cp.max(cp.abs(v))**2`, expressed as the maximum of the squared moduli
(equal, since squaring is monotone on nonnegative reals). -/
def maxabs2 (v : Vec) : ℚ := (v.map Cx.normSq).foldr max 0

/-- The Dai-Yuan update appearing verbatim in both solver files:
`-g + (cp.linalg.norm(g)**2 / cp.sum(cp.conj(d0) * (g - g0))) * d0`
where `d0`, `g0` are the previous direction and gradient. -/
def daiYuan (g d0 g0 : Vec) : Vec :=
  vadd (vneg g) (vsmul (Cx.cdiv (Cx.ofRat (vnormSq g)) (cdot d0 (vsub g g0))) d0)

/-- Halving a step length strictly decreases `⌊γ·10³²⌋₊` while `γ` is at least
`1e-32`; this is the termination measure of both backtracking loops. -/
theorem ls_measure_lt {g : ℚ} (h : (1e-32 : ℚ) ≤ g) :
    Nat.floor (g * (1 / 2) * 10 ^ 32) < Nat.floor (g * 10 ^ 32) := by
  have h1 : (1 : ℚ) ≤ g * 10 ^ 32 := by
    have h2 : (1e-32 : ℚ) * 10 ^ 32 ≤ g * 10 ^ 32 :=
      mul_le_mul_of_nonneg_right h (by positivity)
    have h3 : (1e-32 : ℚ) * 10 ^ 32 = 1 := by norm_num
    linarith
  have h4 : g * (1 / 2) * 10 ^ 32 = (g * 10 ^ 32) / ((2 : ℕ) : ℚ) := by
    push_cast
    ring
  rw [h4, Nat.floor_div_nat]
  have h5 : 1 ≤ Nat.floor (g * 10 ^ 32) := Nat.le_floor (by exact_mod_cast h1)
  exact Nat.div_lt_self (Nat.lt_of_lt_of_le Nat.zero_lt_one h5) one_lt_two

namespace Ptycho

/-- Model of `CGPtychoSolver.line_search` of `src/libtike/cufft/ptycho.py`:

    m = 0
    fx = f(x)
    while f(x + step_length * d) > fx + step_shrink * m:
        if step_length < 1e-32:
            warnings.warn(...); return 0
        step_length *= step_shrink
    return step_length

`step_shrink` is specialized to its default `0.5`, the value used at every
call site, and the dead `+ step_shrink * m` term (with `m = 0`) is dropped. -/
def line_search (f : Vec → ℚ) (x d : Vec) (g : ℚ) : ℚ :=
  if f (vadd x (vsmulQ g d)) > f x then
    if g < 1e-32 then 0
    else line_search f x d (g * (1 / 2))
  else g
termination_by Nat.floor (g * 10 ^ 32)
decreasing_by exact ls_measure_lt (le_of_not_lt (by assumption))

end Ptycho

namespace Solver

/-- Model of `CGPtychoSolver.line_search` of `src/ptychocg/solver.py`:

    while(minf(u, fu) - minf(u + gamma*d, fu + gamma*fd) < 0 and gamma > 1e-32):
        gamma *= 0.5
    if(gamma <= 1e-32):
        gamma = 0; warnings.warn(...)
    return gamma
-/
def line_search (minf : Vec → Vec → ℚ) (g : ℚ) (u fu d fd : Vec) : ℚ :=
  if minf u fu - minf (vadd u (vsmulQ g d)) (vadd fu (vsmulQ g fd)) < 0 ∧ (1e-32 : ℚ) < g then
    line_search minf (g * (1 / 2)) u fu d fd
  else if g ≤ 1e-32 then 0 else g
termination_by Nat.floor (g * 10 ^ 32)
decreasing_by
  rename_i h
  exact ls_measure_lt (le_of_lt h.2)

end Solver

namespace Ptycho

theorem line_search_nonneg (f : Vec → ℚ) (x d : Vec) (g : ℚ) (hg : 0 ≤ g) :
    0 ≤ line_search f x d g := by
  have key : ∀ n : ℕ, ∀ g : ℚ, Nat.floor (g * 10 ^ 32) = n → 0 ≤ g →
      0 ≤ line_search f x d g := by
    intro n
    induction n using Nat.strong_induction_on with
    | _ n ih =>
      intro g hn hg
      rw [line_search.eq_def]
      split
      · split
        · norm_num
        · exact ih _ (hn ▸ ls_measure_lt (le_of_not_lt (by assumption))) _ rfl
            (by nlinarith)
      · exact hg
  exact key _ g rfl hg

theorem line_search_monotone (f : Vec → ℚ) (x d : Vec) (g : ℚ)
    (hpos : 0 < line_search f x d g) :
    f (vadd x (vsmulQ (line_search f x d g) d)) ≤ f x := by
  have key : ∀ n : ℕ, ∀ g : ℚ, Nat.floor (g * 10 ^ 32) = n → ∀ r : ℚ,
      line_search f x d g = r → 0 < r → f (vadd x (vsmulQ r d)) ≤ f x := by
    intro n
    induction n using Nat.strong_induction_on with
    | _ n ih =>
      intro g hn r hr hpos
      rw [line_search.eq_def] at hr
      split at hr
      · split at hr
        · exact absurd (hr ▸ hpos) (by norm_num)
        · exact ih _ (hn ▸ ls_measure_lt (le_of_not_lt (by assumption))) _ rfl r hr hpos
      · subst hr
        exact le_of_not_lt (by assumption)
  exact key _ g rfl _ rfl hpos

theorem line_search_exhaust (f : Vec → ℚ) (x d : Vec) (g : ℚ)
    (H : ∀ k : ℕ, (k = 0 ∨ (1e-32 : ℚ) * (1 / 2) ≤ g * (1 / 2) ^ k) →
      f (vadd x (vsmulQ (g * (1 / 2) ^ k) d)) > f x) :
    line_search f x d g = 0 := by
  have key : ∀ n : ℕ, ∀ g : ℚ, Nat.floor (g * 10 ^ 32) = n →
      (∀ k : ℕ, (k = 0 ∨ (1e-32 : ℚ) * (1 / 2) ≤ g * (1 / 2) ^ k) →
        f (vadd x (vsmulQ (g * (1 / 2) ^ k) d)) > f x) →
      line_search f x d g = 0 := by
    intro n
    induction n using Nat.strong_induction_on with
    | _ n ih =>
      intro g hn H
      rw [line_search.eq_def]
      split
      · split
        · rfl
        · rename_i hcond hge
          refine ih _ (hn ▸ ls_measure_lt (le_of_not_lt hge)) _ rfl ?_
          intro k hk
          have e : g * (1 / 2) * (1 / 2) ^ k = g * (1 / 2) ^ (k + 1) := by ring
          rw [e]
          refine H (k + 1) (Or.inr ?_)
          rcases hk with hk0 | hkr
          · subst hk0
            have hge' : (1e-32 : ℚ) ≤ g := le_of_not_lt hge
            have : g * (1 / 2) ^ (0 + 1) = g * (1 / 2) := by ring
            rw [this]
            linarith
          · rw [← e]
            exact hkr
      · rename_i hcond
        have h0 := H 0 (Or.inl rfl)
        simp only [pow_zero, mul_one] at h0
        exact absurd h0 hcond
  exact key _ g rfl H

end Ptycho

namespace Solver

theorem solver_line_search_nonneg (minf : Vec → Vec → ℚ) (g : ℚ) (u fu d fd : Vec) :
    0 ≤ line_search minf g u fu d fd := by
  have key : ∀ n : ℕ, ∀ g : ℚ, Nat.floor (g * 10 ^ 32) = n →
      0 ≤ line_search minf g u fu d fd := by
    intro n
    induction n using Nat.strong_induction_on with
    | _ n ih =>
      intro g hn
      rw [line_search.eq_def]
      split
      · rename_i hcond
        exact ih _ (hn ▸ ls_measure_lt (le_of_lt hcond.2)) _ rfl
      · split
        · norm_num
        · rename_i hgt
          have : (0 : ℚ) < 1e-32 := by norm_num
          linarith [lt_of_not_le hgt]
  exact key _ g rfl

theorem solver_line_search_monotone (minf : Vec → Vec → ℚ) (g : ℚ) (u fu d fd : Vec)
    (hpos : 0 < line_search minf g u fu d fd) :
    minf (vadd u (vsmulQ (line_search minf g u fu d fd) d))
        (vadd fu (vsmulQ (line_search minf g u fu d fd) fd)) ≤ minf u fu := by
  have key : ∀ n : ℕ, ∀ g : ℚ, Nat.floor (g * 10 ^ 32) = n → ∀ r : ℚ,
      line_search minf g u fu d fd = r → 0 < r →
      minf (vadd u (vsmulQ r d)) (vadd fu (vsmulQ r fd)) ≤ minf u fu := by
    intro n
    induction n using Nat.strong_induction_on with
    | _ n ih =>
      intro g hn r hr hpos
      rw [line_search.eq_def] at hr
      split at hr
      · rename_i hcond
        exact ih _ (hn ▸ ls_measure_lt (le_of_lt hcond.2)) _ rfl r hr hpos
      · rename_i hcond
        split at hr
        · exact absurd (hr ▸ hpos) (by norm_num)
        · rename_i hgt
          subst hr
          have hA : ¬ (minf u fu - minf (vadd u (vsmulQ g d)) (vadd fu (vsmulQ g fd)) < 0) :=
            fun hA => hcond ⟨hA, lt_of_not_le hgt⟩
          linarith [le_of_not_lt hA]
  exact key _ g rfl _ rfl hpos

theorem solver_line_search_exhaust (minf : Vec → Vec → ℚ) (g : ℚ) (u fu d fd : Vec)
    (H : ∀ k : ℕ, (1e-32 : ℚ) < g * (1 / 2) ^ k →
      minf u fu - minf (vadd u (vsmulQ (g * (1 / 2) ^ k) d))
        (vadd fu (vsmulQ (g * (1 / 2) ^ k) fd)) < 0) :
    line_search minf g u fu d fd = 0 := by
  have key : ∀ n : ℕ, ∀ g : ℚ, Nat.floor (g * 10 ^ 32) = n →
      (∀ k : ℕ, (1e-32 : ℚ) < g * (1 / 2) ^ k →
        minf u fu - minf (vadd u (vsmulQ (g * (1 / 2) ^ k) d))
          (vadd fu (vsmulQ (g * (1 / 2) ^ k) fd)) < 0) →
      line_search minf g u fu d fd = 0 := by
    intro n
    induction n using Nat.strong_induction_on with
    | _ n ih =>
      intro g hn H
      rw [line_search.eq_def]
      split
      · rename_i hcond
        refine ih _ (hn ▸ ls_measure_lt (le_of_lt hcond.2)) _ rfl ?_
        intro k hk
        have e : g * (1 / 2) * (1 / 2) ^ k = g * (1 / 2) ^ (k + 1) := by ring
        rw [e] at hk ⊢
        exact H (k + 1) hk
      · rename_i hcond
        split
        · rfl
        · rename_i hgt
          have hg32 : (1e-32 : ℚ) < g * (1 / 2) ^ 0 := by
            simpa using lt_of_not_le hgt
          have h0 := H 0 hg32
          simp only [pow_zero, mul_one] at h0
          exact absurd ⟨h0, by simpa using hg32⟩ hcond
  exact key _ g rfl H

end Solver

/-- Per-iteration observable record of the two `line_search` calls of one
outer iteration: the initial trial step passed in and the step returned, for
the object subproblem and (when probe recovery is active) the probe
subproblem. -/
structure IterRec where
  psiInit : ℚ
  psiRet : ℚ
  prbInit : Option ℚ
  prbRet : ℚ
deriving DecidableEq, Repr

namespace Ptycho

/-- The external collaborators of `CGPtychoSolver.run`
(`src/libtike/cufft/ptycho.py`): the projection kernels (`fwd_ptycho`,
`adj_ptycho`, `adj_ptycho_prb`, with the fixed `scan` argument folded in),
the model/data-dependent residual `fpsi ↦ residual` of lines 272/278
(`fpsi - cp.sqrt(data)*cp.exp(1j*cp.angle(fpsi))` for `'gaussian'`,
`fpsi - data*fpsi/(cp.abs(fpsi)**2+1e-32)` for `'poisson'`; embedded
concretely over `ℂ` later in this file), the loss functional `minf`, and the
scalar `self.nscan`.  The loop theorems hold for every instantiation. -/
structure Ops where
  fwd : Vec → Vec → Vec
  adj : Vec → Vec → Vec
  adjprb : Vec → Vec → Vec
  res : Vec → Vec
  minf : Vec → ℚ
  nscan : ℚ

/-- The loop-carried locals of `CGPtychoSolver.run`: the current estimates,
the previous search directions and gradients of each subproblem
(`dpsi`/`gradpsi0`, `dprb`/`gradprb0`), and the last step lengths. -/
structure St where
  psi : Vec
  prb : Vec
  dpsi : Vec
  g0psi : Vec
  dprb : Vec
  g0prb : Vec
  gammapsi : ℚ
  gammaprb : ℚ

/-- Lines 268-281: `gradpsi`, the normalized object gradient computed at the
start of outer iteration `i` from the state entering the iteration. -/
def objGrad (o : Ops) (s : St) : Vec :=
  vdivQ (o.adj (o.res (o.fwd s.psi s.prb)) s.prb) (maxabs2 s.prb)

/-- Lines 282-288: the Dai-Yuan object direction `dpsi` of iteration `i`. -/
def objDir (o : Ops) (i : ℕ) (s : St) : Vec :=
  if i = 0 then vneg (objGrad o s) else daiYuan (objGrad o s) s.dpsi s.g0psi

/-- Lines 290-292: `gammapsi = self.line_search(minf, fpsi, fdpsi)`; the
initial trial step is the default argument `1` on every iteration. -/
def objGamma (o : Ops) (i : ℕ) (s : St) : ℚ :=
  line_search o.minf (o.fwd s.psi s.prb) (o.fwd (objDir o i s) s.prb) 1

/-- Line 294: `psi = psi + gammapsi * dpsi`. -/
def psiNext (o : Ops) (i : ℕ) (s : St) : Vec :=
  vadd s.psi (vsmulQ (objGamma o i s) (objDir o i s))

/-- Lines 299-312: `gradprb`, the normalized probe gradient, computed from the
just-updated `psi`. -/
def prbGrad (o : Ops) (i : ℕ) (s : St) : Vec :=
  vdivQ (vdivQ (o.adjprb (o.res (o.fwd (psiNext o i s) s.prb)) (psiNext o i s))
    (maxabs2 (psiNext o i s))) o.nscan

/-- Lines 313-319: the Dai-Yuan probe direction `dprb` of iteration `i`. -/
def prbDir (o : Ops) (i : ℕ) (s : St) : Vec :=
  if i = 0 then vneg (prbGrad o i s) else daiYuan (prbGrad o i s) s.dprb s.g0prb

/-- Lines 322-323: `gammaprb = self.line_search(minf, fprb, fdprb)` with
`fdprb = self.fwd_ptycho(psi, scan, dprb)`; initial trial step is again the
default `1`. -/
def prbGamma (o : Ops) (i : ℕ) (s : St) : ℚ :=
  line_search o.minf (o.fwd (psiNext o i s) s.prb) (o.fwd (psiNext o i s) (prbDir o i s)) 1

/-- One outer iteration (body of `for i in range(piter)`, lines 265-331),
returning the successor state and the step-length record.  The convergence
print of lines 328-331 is observational only and is not part of the state. -/
def step (o : Ops) (recover : Bool) (i : ℕ) (s : St) : St × IterRec :=
  if recover then
    (⟨psiNext o i s, vadd s.prb (vsmulQ (prbGamma o i s) (prbDir o i s)),
      objDir o i s, objGrad o s, prbDir o i s, prbGrad o i s,
      objGamma o i s, prbGamma o i s⟩,
     ⟨1, objGamma o i s, some 1, prbGamma o i s⟩)
  else
    (⟨psiNext o i s, s.prb, objDir o i s, objGrad o s, s.dprb, s.g0prb,
      objGamma o i s, s.gammaprb⟩,
     ⟨1, objGamma o i s, none, s.gammaprb⟩)

/-- State on entry to `run`'s loop: the caller's `psi`/`prb`; `gammaprb = 0`
(line 264); the CG history variables are unassigned before iteration `0`
(modelled as empty, they are written before ever being read). -/
def init (psi prb : Vec) : St := ⟨psi, prb, [], [], [], [], 0, 0⟩

/-- The loop state entering outer iteration `i` of `CGPtychoSolver.run`. -/
def stateAt (o : Ops) (recover : Bool) (psi prb : Vec) : ℕ → St
  | 0 => init psi prb
  | i + 1 => (step o recover i (stateAt o recover psi prb i)).1

/-- The step-length record of outer iteration `i`. -/
def recAt (o : Ops) (recover : Bool) (psi prb : Vec) (i : ℕ) : IterRec :=
  (step o recover i (stateAt o recover psi prb i)).2

/-- Model of `CGPtychoSolver.run(data, psi, scan, prb, piter, model, recover_prb)`:
run `piter` outer iterations and return the final `psi, prb` pair. -/
def run (o : Ops) (recover : Bool) (piter : ℕ) (psi prb : Vec) : Vec × Vec :=
  ((stateAt o recover psi prb piter).psi, (stateAt o recover psi prb piter).prb)

/-- Lines 249-250 of `run`: `assert prb.ndim == 3` before any iteration;
`prbNdim` is the rank of the supplied probe array.  An `Except.error` models
the `AssertionError`. -/
def run_checked (o : Ops) (recover : Bool) (piter : ℕ) (psi prb : Vec)
    (prbNdim : ℕ) : Except String (Vec × Vec) :=
  if prbNdim = 3 then .ok (run o recover piter psi prb)
  else .error ("prb needs 3 dimensions, not " ++ toString prbNdim)

end Ptycho

namespace Solver

/-- The external collaborators of `CGPtychoSolver.cg_ptycho`
(`src/ptychocg/solver.py`), exactly as in `Ptycho.Ops` except that this
file's `minf` takes the pair `(psi, fpsi)` (and ignores `psi`). -/
structure Ops where
  fwd : Vec → Vec → Vec
  adj : Vec → Vec → Vec
  adjprb : Vec → Vec → Vec
  res : Vec → Vec
  minf : Vec → Vec → ℚ
  nscan : ℚ

/-- Loop-carried locals of `cg_ptycho`, including the carried-over step
lengths `gammapsi`, `gammaprb` (lines 143-145). -/
structure St where
  psi : Vec
  prb : Vec
  dpsi : Vec
  g0psi : Vec
  dprb : Vec
  g0prb : Vec
  gammapsi : ℚ
  gammaprb : ℚ

/-- Lines 153-160: the normalized object gradient of iteration `i`. -/
def objGrad (o : Ops) (s : St) : Vec :=
  vdivQ (o.adj (o.res (o.fwd s.psi s.prb)) s.prb) (maxabs2 s.prb)

/-- Lines 161-166: the Dai-Yuan object direction of iteration `i`. -/
def objDir (o : Ops) (i : ℕ) (s : St) : Vec :=
  if i = 0 then vneg (objGrad o s) else daiYuan (objGrad o s) s.dpsi s.g0psi

/-- Lines 168-174: `if recover_prb: gammapsi = 1` followed by
`gammapsi = line_search(minf, gammapsi, psi, fpsi, dpsi, fdpsi)`: the initial
trial step is the carried-over `gammapsi` unless probe recovery resets it. -/
def objGamma (o : Ops) (recover : Bool) (i : ℕ) (s : St) : ℚ :=
  line_search o.minf (if recover then 1 else s.gammapsi) s.psi
    (o.fwd s.psi s.prb) (objDir o i s) (o.fwd (objDir o i s) s.prb)

/-- Line 176: `psi = psi + gammapsi*dpsi`. -/
def psiNext (o : Ops) (recover : Bool) (i : ℕ) (s : St) : Vec :=
  vadd s.psi (vsmulQ (objGamma o recover i s) (objDir o i s))

/-- Lines 181-188: the normalized probe gradient, from the updated `psi`. -/
def prbGrad (o : Ops) (recover : Bool) (i : ℕ) (s : St) : Vec :=
  vdivQ (vdivQ (o.adjprb (o.res (o.fwd (psiNext o recover i s) s.prb))
    (psiNext o recover i s)) (maxabs2 (psiNext o recover i s))) o.nscan

/-- Lines 189-194: the Dai-Yuan probe direction of iteration `i`. -/
def prbDir (o : Ops) (recover : Bool) (i : ℕ) (s : St) : Vec :=
  if i = 0 then vneg (prbGrad o recover i s)
  else daiYuan (prbGrad o recover i s) s.dprb s.g0prb

/-- Lines 196-199: `gammaprb = line_search(minf, 1, psi, fprb, psi, fdprb)`:
initial trial step `1` on every iteration, and the `d` argument is `psi`
itself rather than the probe direction. -/
def prbGamma (o : Ops) (recover : Bool) (i : ℕ) (s : St) : ℚ :=
  line_search o.minf 1 (psiNext o recover i s)
    (o.fwd (psiNext o recover i s) s.prb) (psiNext o recover i s)
    (o.fwd (psiNext o recover i s) (prbDir o recover i s))

/-- One outer iteration (body of `for i in range(piter)`, lines 150-207). -/
def step (o : Ops) (recover : Bool) (i : ℕ) (s : St) : St × IterRec :=
  if recover then
    (⟨psiNext o recover i s,
      vadd s.prb (vsmulQ (prbGamma o recover i s) (prbDir o recover i s)),
      objDir o i s, objGrad o s, prbDir o recover i s, prbGrad o recover i s,
      objGamma o recover i s, prbGamma o recover i s⟩,
     ⟨if recover then 1 else s.gammapsi, objGamma o recover i s,
      some 1, prbGamma o recover i s⟩)
  else
    (⟨psiNext o recover i s, s.prb, objDir o i s, objGrad o s, s.dprb, s.g0prb,
      objGamma o recover i s, s.gammaprb⟩,
     ⟨if recover then 1 else s.gammapsi, objGamma o recover i s,
      none, s.gammaprb⟩)

/-- State on entry to the loop: lines 143-145 set `gammapsi = 1`,
`gammaprb = 1`. -/
def init (psi prb : Vec) : St := ⟨psi, prb, [], [], [], [], 1, 1⟩

/-- The loop state entering outer iteration `i` of `cg_ptycho`. -/
def stateAt (o : Ops) (recover : Bool) (psi prb : Vec) : ℕ → St
  | 0 => init psi prb
  | i + 1 => (step o recover i (stateAt o recover psi prb i)).1

/-- The step-length record of outer iteration `i`. -/
def recAt (o : Ops) (recover : Bool) (psi prb : Vec) (i : ℕ) : IterRec :=
  (step o recover i (stateAt o recover psi prb i)).2

/-- Model of `CGPtychoSolver.cg_ptycho(data, psi, scan, prb, piter, model,
recover_prb)`: run `piter` outer iterations, return the final `psi, prb`. -/
def cg_ptycho (o : Ops) (recover : Bool) (piter : ℕ) (psi prb : Vec) :
    Vec × Vec :=
  ((stateAt o recover psi prb piter).psi, (stateAt o recover psi prb piter).prb)

end Solver

namespace Ptycho

theorem step_dpsi (o : Ops) (r : Bool) (i : ℕ) (s : St) :
    ((step o r i s).1).dpsi = objDir o i s := by
  cases r <;> rfl

theorem step_g0psi (o : Ops) (r : Bool) (i : ℕ) (s : St) :
    ((step o r i s).1).g0psi = objGrad o s := by
  cases r <;> rfl

theorem step_dprb (o : Ops) (i : ℕ) (s : St) :
    ((step o true i s).1).dprb = prbDir o i s := rfl

theorem step_g0prb (o : Ops) (i : ℕ) (s : St) :
    ((step o true i s).1).g0prb = prbGrad o i s := rfl

end Ptycho

namespace Solver

theorem solver_step_dpsi (o : Ops) (r : Bool) (i : ℕ) (s : St) :
    ((step o r i s).1).dpsi = objDir o i s := by
  cases r <;> rfl

theorem solver_step_g0psi (o : Ops) (r : Bool) (i : ℕ) (s : St) :
    ((step o r i s).1).g0psi = objGrad o s := by
  cases r <;> rfl

theorem solver_step_dprb (o : Ops) (i : ℕ) (s : St) :
    ((step o true i s).1).dprb = prbDir o true i s := rfl

theorem solver_step_g0prb (o : Ops) (i : ℕ) (s : St) :
    ((step o true i s).1).g0prb = prbGrad o true i s := rfl

theorem solver_step_gammapsi (o : Ops) (r : Bool) (i : ℕ) (s : St) :
    ((step o r i s).1).gammapsi = objGamma o r i s := by
  cases r <;> rfl

end Solver

/-- C1: in both solver files, for each subproblem, the search direction of
outer iteration 0 is the negated (normalized) gradient, and the direction of
every later iteration `i` equals
`-gradient + (norm(gradient)^2 / (conj(prevDir) . (gradient - prevGrad))) * prevDir`
where `prevGrad` and `prevDir` are exactly the gradient and direction stored at
iteration `i - 1` of the same subproblem.  `stateAt ... (j + 1)` carries the
values stored during iteration `j`, so the direction of iteration `i + 1` is
`(stateAt ... (i + 2)).dpsi` and the previous values are those of
`stateAt ... (i + 1)`. -/
theorem c1_dai_yuan_direction (oP : Ptycho.Ops) (oS : Solver.Ops) (r : Bool)
    (psi prb psi2 prb2 : Vec) (i : ℕ) :
    ((Ptycho.stateAt oP r psi prb 1).dpsi
        = vneg (Ptycho.objGrad oP (Ptycho.stateAt oP r psi prb 0))
      ∧ (Ptycho.stateAt oP r psi prb (i + 2)).dpsi
        = vadd (vneg (Ptycho.objGrad oP (Ptycho.stateAt oP r psi prb (i + 1))))
            (vsmul
              (Cx.cdiv
                (Cx.ofRat (vnormSq (Ptycho.objGrad oP (Ptycho.stateAt oP r psi prb (i + 1)))))
                (cdot (Ptycho.stateAt oP r psi prb (i + 1)).dpsi
                  (vsub (Ptycho.objGrad oP (Ptycho.stateAt oP r psi prb (i + 1)))
                    (Ptycho.objGrad oP (Ptycho.stateAt oP r psi prb i)))))
              (Ptycho.stateAt oP r psi prb (i + 1)).dpsi))
    ∧ ((Ptycho.stateAt oP true psi prb 1).dprb
        = vneg (Ptycho.prbGrad oP 0 (Ptycho.stateAt oP true psi prb 0))
      ∧ (Ptycho.stateAt oP true psi prb (i + 2)).dprb
        = vadd (vneg (Ptycho.prbGrad oP (i + 1) (Ptycho.stateAt oP true psi prb (i + 1))))
            (vsmul
              (Cx.cdiv
                (Cx.ofRat (vnormSq (Ptycho.prbGrad oP (i + 1) (Ptycho.stateAt oP true psi prb (i + 1)))))
                (cdot (Ptycho.stateAt oP true psi prb (i + 1)).dprb
                  (vsub (Ptycho.prbGrad oP (i + 1) (Ptycho.stateAt oP true psi prb (i + 1)))
                    (Ptycho.prbGrad oP i (Ptycho.stateAt oP true psi prb i)))))
              (Ptycho.stateAt oP true psi prb (i + 1)).dprb))
    ∧ ((Solver.stateAt oS r psi2 prb2 1).dpsi
        = vneg (Solver.objGrad oS (Solver.stateAt oS r psi2 prb2 0))
      ∧ (Solver.stateAt oS r psi2 prb2 (i + 2)).dpsi
        = vadd (vneg (Solver.objGrad oS (Solver.stateAt oS r psi2 prb2 (i + 1))))
            (vsmul
              (Cx.cdiv
                (Cx.ofRat (vnormSq (Solver.objGrad oS (Solver.stateAt oS r psi2 prb2 (i + 1)))))
                (cdot (Solver.stateAt oS r psi2 prb2 (i + 1)).dpsi
                  (vsub (Solver.objGrad oS (Solver.stateAt oS r psi2 prb2 (i + 1)))
                    (Solver.objGrad oS (Solver.stateAt oS r psi2 prb2 i)))))
              (Solver.stateAt oS r psi2 prb2 (i + 1)).dpsi))
    ∧ ((Solver.stateAt oS true psi2 prb2 1).dprb
        = vneg (Solver.prbGrad oS true 0 (Solver.stateAt oS true psi2 prb2 0))
      ∧ (Solver.stateAt oS true psi2 prb2 (i + 2)).dprb
        = vadd (vneg (Solver.prbGrad oS true (i + 1) (Solver.stateAt oS true psi2 prb2 (i + 1))))
            (vsmul
              (Cx.cdiv
                (Cx.ofRat (vnormSq (Solver.prbGrad oS true (i + 1) (Solver.stateAt oS true psi2 prb2 (i + 1)))))
                (cdot (Solver.stateAt oS true psi2 prb2 (i + 1)).dprb
                  (vsub (Solver.prbGrad oS true (i + 1) (Solver.stateAt oS true psi2 prb2 (i + 1)))
                    (Solver.prbGrad oS true i (Solver.stateAt oS true psi2 prb2 i)))))
              (Solver.stateAt oS true psi2 prb2 (i + 1)).dprb)) := by
  refine ⟨⟨?_, ?_⟩, ⟨?_, ?_⟩, ⟨?_, ?_⟩, ⟨?_, ?_⟩⟩
  · have h1 : Ptycho.stateAt oP r psi prb 1
        = (Ptycho.step oP r 0 (Ptycho.stateAt oP r psi prb 0)).1 := rfl
    rw [h1, Ptycho.step_dpsi, Ptycho.objDir, if_pos rfl]
  · have h1 : Ptycho.stateAt oP r psi prb (i + 2)
        = (Ptycho.step oP r (i + 1) (Ptycho.stateAt oP r psi prb (i + 1))).1 := rfl
    rw [h1, Ptycho.step_dpsi, Ptycho.objDir, if_neg (Nat.succ_ne_zero i), daiYuan]
    have h2 : Ptycho.stateAt oP r psi prb (i + 1)
        = (Ptycho.step oP r i (Ptycho.stateAt oP r psi prb i)).1 := rfl
    rw [h2, Ptycho.step_g0psi]
  · have h1 : Ptycho.stateAt oP true psi prb 1
        = (Ptycho.step oP true 0 (Ptycho.stateAt oP true psi prb 0)).1 := rfl
    rw [h1, Ptycho.step_dprb, Ptycho.prbDir, if_pos rfl]
  · have h1 : Ptycho.stateAt oP true psi prb (i + 2)
        = (Ptycho.step oP true (i + 1) (Ptycho.stateAt oP true psi prb (i + 1))).1 := rfl
    rw [h1, Ptycho.step_dprb, Ptycho.prbDir, if_neg (Nat.succ_ne_zero i), daiYuan]
    have h2 : Ptycho.stateAt oP true psi prb (i + 1)
        = (Ptycho.step oP true i (Ptycho.stateAt oP true psi prb i)).1 := rfl
    rw [h2, Ptycho.step_g0prb]
  · have h1 : Solver.stateAt oS r psi2 prb2 1
        = (Solver.step oS r 0 (Solver.stateAt oS r psi2 prb2 0)).1 := rfl
    rw [h1, Solver.solver_step_dpsi, Solver.objDir, if_pos rfl]
  · have h1 : Solver.stateAt oS r psi2 prb2 (i + 2)
        = (Solver.step oS r (i + 1) (Solver.stateAt oS r psi2 prb2 (i + 1))).1 := rfl
    rw [h1, Solver.solver_step_dpsi, Solver.objDir, if_neg (Nat.succ_ne_zero i), daiYuan]
    have h2 : Solver.stateAt oS r psi2 prb2 (i + 1)
        = (Solver.step oS r i (Solver.stateAt oS r psi2 prb2 i)).1 := rfl
    rw [h2, Solver.solver_step_g0psi]
  · have h1 : Solver.stateAt oS true psi2 prb2 1
        = (Solver.step oS true 0 (Solver.stateAt oS true psi2 prb2 0)).1 := rfl
    rw [h1, Solver.solver_step_dprb, Solver.prbDir, if_pos rfl]
  · have h1 : Solver.stateAt oS true psi2 prb2 (i + 2)
        = (Solver.step oS true (i + 1) (Solver.stateAt oS true psi2 prb2 (i + 1))).1 := rfl
    rw [h1, Solver.solver_step_dprb, Solver.prbDir, if_neg (Nat.succ_ne_zero i), daiYuan]
    have h2 : Solver.stateAt oS true psi2 prb2 (i + 1)
        = (Solver.step oS true i (Solver.stateAt oS true psi2 prb2 i)).1 := rfl
    rw [h2, Solver.solver_step_g0prb]

/-- C3 (amended): in `solver.py`'s `cg_ptycho` the probe line search starts
from trial step `1` on every iteration, and the object line search starts
from the previous iteration's returned object step (initially `1`), reset to
`1` exactly when probe recovery is active; in `ptycho.py`'s `run`, by
contrast, both line searches start from the default trial step `1` on every
iteration. -/
theorem c3_initial_trial_steps (oP : Ptycho.Ops) (oS : Solver.Ops) (r : Bool)
    (psi prb psi2 prb2 : Vec) (i : ℕ) :
    ((Solver.recAt oS true psi2 prb2 i).prbInit = some 1
      ∧ (Solver.recAt oS r psi2 prb2 0).psiInit = 1
      ∧ (Solver.recAt oS r psi2 prb2 (i + 1)).psiInit
          = (if r then 1 else (Solver.recAt oS r psi2 prb2 i).psiRet))
    ∧ ((Ptycho.recAt oP r psi prb i).psiInit = 1
      ∧ (Ptycho.recAt oP true psi prb i).prbInit = some 1) := by
  refine ⟨⟨rfl, ?_, ?_⟩, ?_, rfl⟩
  · cases r <;> rfl
  · cases r <;> rfl
  · cases r <;> rfl

/-- Summed real parts; loss functional used by the concrete counterexample
instantiation below. -/
def sumRe (v : Vec) : ℚ := (v.map Cx.re).sum

/-- A concrete instantiation of the external collaborators of
`CGPtychoSolver.run` under which the object line search of iteration 0
returns step `1/2`: forward and both adjoints are the identity in their
first argument, the residual is the identity, and the loss of a forward
field `v` is `(sumRe v - 3/5)²`. -/
def cexOps : Ptycho.Ops :=
  ⟨fun a _ => a, fun w _ => w, fun w _ => w, fun w => w,
   fun v => (sumRe v - 3 / 5) ^ 2, 1⟩

/-- Initial one-pixel object used by the counterexample. -/
def cexPsi : Vec := [⟨1, 0⟩]

/-- Initial one-pixel probe used by the counterexample. -/
def cexPrb : Vec := [⟨1, 0⟩]

theorem cex_objDir : Ptycho.objDir cexOps 0 (Ptycho.init cexPsi cexPrb) = [⟨-1, 0⟩] := by
  simp only [Ptycho.objDir, Ptycho.objGrad, Ptycho.init, cexOps, cexPsi, cexPrb,
    vneg, vdivQ, maxabs2, Cx.normSq, Cx.neg, List.map, List.foldr, if_pos]
  norm_num

theorem cex_gamma :
    Ptycho.line_search cexOps.minf [⟨1, 0⟩] [⟨-1, 0⟩] 1 = 1 * (1 / 2) := by
  rw [Ptycho.line_search.eq_def]
  have c1 : cexOps.minf (vadd [⟨1, 0⟩] (vsmulQ 1 [⟨-1, 0⟩])) > cexOps.minf [⟨1, 0⟩] := by
    norm_num [cexOps, sumRe, vadd, vsmulQ, vsmul, Cx.mul, Cx.add, Cx.ofRat,
      List.zipWith, List.map, List.sum_cons, List.sum_nil]
  rw [if_pos c1, if_neg (by norm_num : ¬ (1 : ℚ) < 1e-32)]
  rw [Ptycho.line_search.eq_def]
  have c2 : ¬ (cexOps.minf (vadd [⟨1, 0⟩] (vsmulQ (1 * (1 / 2)) [⟨-1, 0⟩]))
      > cexOps.minf [⟨1, 0⟩]) := by
    norm_num [cexOps, sumRe, vadd, vsmulQ, vsmul, Cx.mul, Cx.add, Cx.ofRat,
      List.zipWith, List.map, List.sum_cons, List.sum_nil]
  rw [if_neg c2]

/-- C3 counterexample: in `ptycho.py`'s `run` (probe recovery off), the
object line search of iteration 1 starts from the default trial step `1`,
not from the step `1/2` returned by iteration 0's object line search — the
carried-over-step behaviour claimed for the object subproblem fails there. -/
theorem c3_counterexample :
    ¬ ((Ptycho.recAt cexOps false cexPsi cexPrb 1).psiInit
        = (Ptycho.recAt cexOps false cexPsi cexPrb 0).psiRet) := by
  intro h
  have h1 : (Ptycho.recAt cexOps false cexPsi cexPrb 1).psiInit = 1 := rfl
  have h2 : (Ptycho.recAt cexOps false cexPsi cexPrb 0).psiRet
      = Ptycho.objGamma cexOps 0 (Ptycho.init cexPsi cexPrb) := rfl
  have h3 : Ptycho.objGamma cexOps 0 (Ptycho.init cexPsi cexPrb) = 1 * (1 / 2) := by
    rw [Ptycho.objGamma]
    have hfw : ∀ a b : Vec, cexOps.fwd a b = a := fun _ _ => rfl
    rw [hfw, hfw, cex_objDir]
    exact cex_gamma
  rw [h1, h2, h3] at h
  norm_num at h

/-- C8: with `piter = 0` the outer loop of either solver runs no iterations
and both solves return the caller-supplied object and probe unchanged. -/
theorem c8_zero_iterations_identity (oP : Ptycho.Ops) (oS : Solver.Ops)
    (r : Bool) (psi prb psi2 prb2 : Vec) :
    Ptycho.run oP r 0 psi prb = (psi, prb)
      ∧ Solver.cg_ptycho oS r 0 psi2 prb2 = (psi2, prb2) :=
  ⟨rfl, rfl⟩

/-- C2: both backtracking line searches return a nonnegative step; whenever the
returned step is positive the loss at the stepped point does not exceed the
loss at the current point; and if every trial step probed by the halving loop
increases the loss (`ptycho.py`: every `g·2⁻ᵏ` that is probed, i.e. `k = 0` or
`g·2⁻⁽ᵏ⁻¹⁾ ≥ 1e-32`; `solver.py`: every `g·2⁻ᵏ > 1e-32`), the search returns
exactly `0`. -/
theorem c2_line_search_monotone_or_zero (f : Vec → ℚ) (x d : Vec)
    (minf : Vec → Vec → ℚ) (u fu d2 fd : Vec) (g : ℚ) (hg : 0 < g) :
    (0 ≤ Ptycho.line_search f x d g
      ∧ (0 < Ptycho.line_search f x d g →
          f (vadd x (vsmulQ (Ptycho.line_search f x d g) d)) ≤ f x)
      ∧ ((∀ k : ℕ, (k = 0 ∨ (1e-32 : ℚ) * (1 / 2) ≤ g * (1 / 2) ^ k) →
            f (vadd x (vsmulQ (g * (1 / 2) ^ k) d)) > f x) →
          Ptycho.line_search f x d g = 0))
    ∧ (0 ≤ Solver.line_search minf g u fu d2 fd
      ∧ (0 < Solver.line_search minf g u fu d2 fd →
          minf (vadd u (vsmulQ (Solver.line_search minf g u fu d2 fd) d2))
              (vadd fu (vsmulQ (Solver.line_search minf g u fu d2 fd) fd))
            ≤ minf u fu)
      ∧ ((∀ k : ℕ, (1e-32 : ℚ) < g * (1 / 2) ^ k →
            minf u fu - minf (vadd u (vsmulQ (g * (1 / 2) ^ k) d2))
              (vadd fu (vsmulQ (g * (1 / 2) ^ k) fd)) < 0) →
          Solver.line_search minf g u fu d2 fd = 0)) :=
  ⟨⟨Ptycho.line_search_nonneg f x d g (le_of_lt hg),
    Ptycho.line_search_monotone f x d g,
    Ptycho.line_search_exhaust f x d g⟩,
   ⟨Solver.solver_line_search_nonneg minf g u fu d2 fd,
    Solver.solver_line_search_monotone minf g u fu d2 fd,
    Solver.solver_line_search_exhaust minf g u fu d2 fd⟩⟩

/-- C2 witness: the line-search guarantees instantiated at the constant-zero
loss, empty arrays and initial step `1`. -/
theorem c2_witness :
    0 < (1 : ℚ)
    ∧ ((0 ≤ Ptycho.line_search (fun _ : Vec => 0) [] [] 1
      ∧ (0 < Ptycho.line_search (fun _ : Vec => 0) [] [] 1 → (0 : ℚ) ≤ 0)
      ∧ ((∀ k : ℕ, (k = 0 ∨ (1e-32 : ℚ) * (1 / 2) ≤ 1 * (1 / 2) ^ k) →
            (0 : ℚ) > 0) →
          Ptycho.line_search (fun _ : Vec => 0) [] [] 1 = 0))
    ∧ (0 ≤ Solver.line_search (fun _ _ : Vec => 0) 1 [] [] [] []
      ∧ (0 < Solver.line_search (fun _ _ : Vec => 0) 1 [] [] [] [] → (0 : ℚ) ≤ 0)
      ∧ ((∀ k : ℕ, (1e-32 : ℚ) < 1 * (1 / 2) ^ k → (0 : ℚ) - 0 < 0) →
          Solver.line_search (fun _ _ : Vec => 0) 1 [] [] [] [] = 0))) :=
  ⟨by norm_num,
   c2_line_search_monotone_or_zero (fun _ => 0) [] [] (fun _ _ => 0) [] [] [] [] 1
     (by norm_num)⟩

/-- C10: the step returned by `solver.py`'s `line_search`, when invoked with a
loss functional that (like `cg_ptycho`'s `minf`) ignores its first argument,
depends only on the initial step `gamma` and the forward images `fu`, `fd`:
changing the `u` and `d` arguments does not change the result — in
particular, passing `psi` instead of the probe direction as `d` in the probe
line search is inconsequential. -/
theorem c10_line_search_ignores_point_args (minf : Vec → Vec → ℚ)
    (hm : ∀ a b v : Vec, minf a v = minf b v) (g : ℚ) (u fu d fd u2 d2 : Vec) :
    Solver.line_search minf g u fu d fd = Solver.line_search minf g u2 fu d2 fd := by
  have key : ∀ n : ℕ, ∀ g : ℚ, Nat.floor (g * 10 ^ 32) = n →
      Solver.line_search minf g u fu d fd = Solver.line_search minf g u2 fu d2 fd := by
    intro n
    induction n using Nat.strong_induction_on with
    | _ n ih =>
      intro g hn
      have e1 : minf u fu = minf u2 fu := hm u u2 fu
      have e2 : minf (vadd u (vsmulQ g d)) (vadd fu (vsmulQ g fd)) =
          minf (vadd u2 (vsmulQ g d2)) (vadd fu (vsmulQ g fd)) :=
        hm _ _ _
      conv_lhs => rw [Solver.line_search.eq_def]
      conv_rhs => rw [Solver.line_search.eq_def]
      simp only [e1, e2]
      split
      · rename_i hcond
        exact ih _ (hn ▸ ls_measure_lt (le_of_lt hcond.2)) _ rfl
      · rfl
  exact key _ g rfl

/-- C10 witness: with the constant-zero loss the solver line search returns
the same step for two different `u`/`d` argument pairs. -/
theorem c10_witness :
    (∀ a b v : Vec, (fun _ _ => (0 : ℚ)) a v = (fun _ _ => (0 : ℚ)) b v)
    ∧ Solver.line_search (fun _ _ => 0) 1 [⟨1, 0⟩] [] [⟨1, 0⟩] []
      = Solver.line_search (fun _ _ => 0) 1 [] [] [⟨2, 0⟩] [] :=
  ⟨fun _ _ _ => rfl,
   c10_line_search_ignores_point_args (fun _ _ => 0) (fun _ _ _ => rfl) 1
     [⟨1, 0⟩] [] [⟨1, 0⟩] [] [] [⟨2, 0⟩]⟩

/-- Batch index arrays `ids = np.arange(k * ptheta, (k + 1) * ptheta)` for
`k in range(0, ntheta // ptheta)`: the per-batch index arrays of the loop
shared by `run_batch` (`ptycho.py`) and `cg_ptycho_batch` (`solver.py`). -/
def batch_ids (ntheta ptheta : ℕ) : List (List ℕ) :=
  (List.range (ntheta / ptheta)).map (fun k => List.range' (k * ptheta) ptheta)

/-- numpy fancy-indexing read `a[ids]` along axis 0. -/
def gather {α : Type} (l : List α) (ids : List ℕ) : List α :=
  ids.filterMap (fun i => l.get? i)

/-- numpy fancy-indexing write `a[ids] = vals` along axis 0 (in-range,
shape-matching writes; numpy would raise otherwise). -/
def scatter {α : Type} (l : List α) (ids : List ℕ) (vals : List α) : List α :=
  (List.zip ids vals).foldl (fun acc p => acc.set p.1 p.2) l

/-- The batched-solve loop shared verbatim by `PtychoCuFFT.run_batch`
(`ptycho.py`, lines 176-191) and `CGPtychoSolver.cg_ptycho_batch`
(`solver.py`, lines 218-223): for each batch index array `ids`, stage
`data[ids]`, `psi[ids]`, `scan[:, ids]`, `prb[ids]`, call the per-batch solve
on the staged slices, and write the returned slices back into `psi[ids]`,
`prb[ids]`.  The per-batch solve (`self.run` resp. `self.cg_ptycho`) is an
opaque parameter.  Arrays hold per-view cells of opaque types. -/
def batch_solve_loop {δ α σ β : Type}
    (solve : List δ → List α → List (List σ) → List β → List α × List β)
    (data : List δ) (scan : List (List σ)) :
    List (List ℕ) → List α × List β → List α × List β
  | [], st => st
  | ids :: rest, (psi, prb) =>
      let r := solve (gather data ids) (gather psi ids)
        (scan.map (fun row => gather row ids)) (gather prb ids)
      batch_solve_loop solve data scan rest
        (scatter psi ids r.1, scatter prb ids r.2)

namespace Ptycho

/-- Model of `PtychoCuFFT.run_batch(data, psi, scan, prb)` of `ptycho.py`:
`assert prb.ndim == 3`, copy `psi`/`prb`, then run the batched-solve loop
over `batch_ids`. -/
def run_batch {δ α σ β : Type}
    (solve : List δ → List α → List (List σ) → List β → List α × List β)
    (ntheta ptheta : ℕ) (data : List δ) (psi : List α) (scan : List (List σ))
    (prb : List β) (prbNdim : ℕ) : Except String (List α × List β) :=
  if prbNdim = 3 then
    .ok (batch_solve_loop solve data scan (batch_ids ntheta ptheta) (psi, prb))
  else .error ("prb needs 3 dimensions, not " ++ toString prbNdim)

end Ptycho

namespace Solver

/-- Model of `CGPtychoSolver.cg_ptycho_batch(data, initpsi, scan, initprb, ...)` of
`solver.py`: `assert initprb.ndim == 3`, copy, then the same batched loop. -/
def cg_ptycho_batch {δ α σ β : Type}
    (solve : List δ → List α → List (List σ) → List β → List α × List β)
    (ntheta ptheta : ℕ) (data : List δ) (psi : List α) (scan : List (List σ))
    (prb : List β) (prbNdim : ℕ) : Except String (List α × List β) :=
  if prbNdim = 3 then
    .ok (batch_solve_loop solve data scan (batch_ids ntheta ptheta) (psi, prb))
  else .error ("prb needs 3 dimensions, not " ++ toString prbNdim)

end Solver

theorem batch_ids_join (ntheta ptheta : ℕ) :
    (batch_ids ntheta ptheta).flatten = List.range (ntheta / ptheta * ptheta) := by
  rw [batch_ids]
  generalize ntheta / ptheta = m
  induction m with
  | zero => simp
  | succ m ih =>
    rw [List.range_succ, List.map_append, List.flatten_append, ih]
    simp only [List.map_cons, List.map_nil, List.flatten_cons, List.flatten_nil,
      List.append_nil]
    rw [List.range_eq_range', List.range_eq_range']
    have h := List.range'_append 0 (m * ptheta) ptheta 1
    simp only [one_mul, zero_add] at h
    rw [h, Nat.succ_mul, Nat.add_comm]

theorem scatter_getElem?_of_not_mem {α : Type} (l : List α) (ids : List ℕ)
    (vals : List α) (v : ℕ) (hv : v ∉ ids) :
    (scatter l ids vals)[v]? = l[v]? := by
  induction ids generalizing vals l with
  | nil => rfl
  | cons i rest ih =>
    cases vals with
    | nil => rfl
    | cons a as =>
      have h1 : v ∉ rest := fun h => hv (List.mem_cons_of_mem _ h)
      have h2 : v ≠ i := fun h => hv (h ▸ List.mem_cons_self i rest)
      have e : scatter l (i :: rest) (a :: as) = scatter (l.set i a) rest as := rfl
      rw [e, ih (l.set i a) as h1]
      exact List.getElem?_set_ne (fun h => h2 h.symm) ..

theorem batch_solve_loop_frame {δ α σ β : Type}
    (solve : List δ → List α → List (List σ) → List β → List α × List β)
    (data : List δ) (scan : List (List σ)) (bs : List (List ℕ))
    (psi : List α) (prb : List β) (v : ℕ) (hv : ∀ ids ∈ bs, v ∉ ids) :
    (batch_solve_loop solve data scan bs (psi, prb)).1[v]? = psi[v]?
      ∧ (batch_solve_loop solve data scan bs (psi, prb)).2[v]? = prb[v]? := by
  induction bs generalizing psi prb with
  | nil => exact ⟨rfl, rfl⟩
  | cons ids rest ih =>
    have h1 : v ∉ ids := hv ids (List.mem_cons_self _ _)
    have h2 : ∀ l ∈ rest, v ∉ l := fun l hl => hv l (List.mem_cons_of_mem _ hl)
    have e : batch_solve_loop solve data scan (ids :: rest) (psi, prb)
        = batch_solve_loop solve data scan rest
            (scatter psi ids (solve (gather data ids) (gather psi ids)
              (scan.map (fun row => gather row ids)) (gather prb ids)).1,
             scatter prb ids (solve (gather data ids) (gather psi ids)
              (scan.map (fun row => gather row ids)) (gather prb ids)).2) := rfl
    rw [e]
    obtain ⟨ihl, ihr⟩ := ih _ _ h2
    exact ⟨ihl.trans (scatter_getElem?_of_not_mem _ _ _ _ h1),
           ihr.trans (scatter_getElem?_of_not_mem _ _ _ _ h1)⟩

/-- C4: the batched solve visits exactly the index arrays
`arange(k*ptheta, (k+1)*ptheta)` for `k < ntheta / ptheta`; their
concatenation, in loop order, is the strictly increasing list
`range(ntheta / ptheta * ptheta)` (so ranges are disjoint, increasing, and
cover each processed view once); when `ptheta ∣ ntheta` this is exactly
`range(ntheta)`; otherwise any view index `v ≥ ntheta / ptheta * ptheta` is
never a member of any batch, and the batched loop returns `psi`/`prb` cells
unchanged at every such index. -/
theorem c4_batch_partition {δ α σ β : Type}
    (solve : List δ → List α → List (List σ) → List β → List α × List β)
    (data : List δ) (scan : List (List σ)) (psi : List α) (prb : List β)
    (ntheta ptheta v : ℕ) :
    (batch_ids ntheta ptheta).flatten = List.range (ntheta / ptheta * ptheta)
    ∧ (ptheta ∣ ntheta → (batch_ids ntheta ptheta).flatten = List.range ntheta)
    ∧ (ntheta / ptheta * ptheta ≤ v → v ∉ (batch_ids ntheta ptheta).flatten)
    ∧ (ntheta / ptheta * ptheta ≤ v →
        (batch_solve_loop solve data scan (batch_ids ntheta ptheta) (psi, prb)).1[v]?
          = psi[v]?
        ∧ (batch_solve_loop solve data scan (batch_ids ntheta ptheta) (psi, prb)).2[v]?
          = prb[v]?) := by
  have hnm : ∀ w : ℕ, ntheta / ptheta * ptheta ≤ w →
      w ∉ (batch_ids ntheta ptheta).flatten := by
    intro w hw hmem
    rw [batch_ids_join] at hmem
    exact absurd (List.mem_range.mp hmem) (not_lt.mpr hw)
  refine ⟨batch_ids_join ntheta ptheta, ?_, hnm v, ?_⟩
  · intro hdvd
    rw [batch_ids_join, Nat.div_mul_cancel hdvd]
  · intro hv
    refine batch_solve_loop_frame solve data scan _ psi prb v ?_
    intro ids hids hmem
    exact hnm v hv (List.mem_flatten.mpr ⟨ids, hids, hmem⟩)

/-- C4 witness: with 4 views and batch width 2 the batches cover
`range 4`; with 5 views and width 2 the last view (index 4) is in no batch
and survives the batched loop unchanged. -/
theorem c4_witness :
    ((2 ∣ 4) ∧ (batch_ids 4 2).flatten = List.range 4)
    ∧ (5 / 2 * 2 ≤ 4 ∧ 4 ∉ (batch_ids 5 2).flatten)
    ∧ (batch_solve_loop (fun _ ps _ pr => (ps.map Nat.succ, pr))
        ([0, 0, 0, 0, 0] : List ℕ) ([] : List (List ℕ)) (batch_ids 5 2)
        (([10, 11, 12, 13, 14] : List ℕ), ([20, 21, 22, 23, 24] : List ℕ))).1[4]?
      = ([10, 11, 12, 13, 14] : List ℕ)[4]? :=
  ⟨⟨by decide,
    (c4_batch_partition (fun _ ps _ pr => (ps.map Nat.succ, pr))
      ([0, 0, 0, 0] : List ℕ) ([] : List (List ℕ)) ([] : List ℕ) ([] : List ℕ)
      4 2 0).2.1 (by decide)⟩,
   ⟨by decide,
    (c4_batch_partition (fun _ ps _ pr => (ps.map Nat.succ, pr))
      ([0, 0, 0, 0, 0] : List ℕ) ([] : List (List ℕ)) ([] : List ℕ)
      ([] : List ℕ) 5 2 4).2.2.1 (by decide)⟩,
   ((c4_batch_partition (fun _ ps _ pr => (ps.map Nat.succ, pr))
      ([0, 0, 0, 0, 0] : List ℕ) ([] : List (List ℕ)) [10, 11, 12, 13, 14]
      [20, 21, 22, 23, 24] 5 2 4).2.2.2 (by decide)).1⟩

/-- C7: if the supplied probe array is not 3-dimensional, `run_batch`,
`cg_ptycho_batch` and `run` all fail with the assertion message before any
computation — the error value is a constant that does not depend on the
solve, the operators, or any array contents; with a 3-dimensional probe the
assertion passes and the solve proceeds. -/
theorem c7_probe_ndim_assert {δ α σ β : Type}
    (solve : List δ → List α → List (List σ) → List β → List α × List β)
    (o : Ptycho.Ops) (r : Bool) (piter : ℕ) (ps pr : Vec)
    (ntheta ptheta : ℕ) (data : List δ) (psi : List α) (scan : List (List σ))
    (prb : List β) (n : ℕ) :
    (n ≠ 3 →
      Ptycho.run_batch solve ntheta ptheta data psi scan prb n
          = .error ("prb needs 3 dimensions, not " ++ toString n)
        ∧ Solver.cg_ptycho_batch solve ntheta ptheta data psi scan prb n
          = .error ("prb needs 3 dimensions, not " ++ toString n)
        ∧ Ptycho.run_checked o r piter ps pr n
          = .error ("prb needs 3 dimensions, not " ++ toString n))
    ∧ (n = 3 →
      Ptycho.run_batch solve ntheta ptheta data psi scan prb n
          = .ok (batch_solve_loop solve data scan (batch_ids ntheta ptheta) (psi, prb))
        ∧ Solver.cg_ptycho_batch solve ntheta ptheta data psi scan prb n
          = .ok (batch_solve_loop solve data scan (batch_ids ntheta ptheta) (psi, prb))
        ∧ Ptycho.run_checked o r piter ps pr n
          = .ok (Ptycho.run o r piter ps pr)) := by
  constructor
  · intro hne
    exact ⟨by rw [Ptycho.run_batch, if_neg hne],
           by rw [Solver.cg_ptycho_batch, if_neg hne],
           by rw [Ptycho.run_checked, if_neg hne]⟩
  · intro heq
    exact ⟨by rw [Ptycho.run_batch, if_pos heq],
           by rw [Solver.cg_ptycho_batch, if_pos heq],
           by rw [Ptycho.run_checked, if_pos heq]⟩

/-- C7 witness: a 2-dimensional probe aborts `run_batch` with the assertion
message, and a 3-dimensional probe passes the check. -/
theorem c7_witness :
    ((2 : ℕ) ≠ 3 ∧
      Ptycho.run_batch (fun _ ps _ pr => (ps, pr)) 1 1 ([] : List ℕ)
          ([0] : List ℕ) ([] : List (List ℕ)) ([0] : List ℕ) 2
        = .error "prb needs 3 dimensions, not 2")
    ∧ ((3 : ℕ) = 3 ∧
      Ptycho.run_checked cexOps false 0 cexPsi cexPrb 3
        = .ok (Ptycho.run cexOps false 0 cexPsi cexPrb)) :=
  ⟨⟨by decide,
    (c7_probe_ndim_assert (fun _ ps _ pr => (ps, pr)) cexOps false 0 cexPsi cexPrb
      1 1 ([] : List ℕ) ([0] : List ℕ) ([] : List (List ℕ)) ([0] : List ℕ) 2).1
      (by decide) |>.1⟩,
   ⟨rfl,
    (c7_probe_ndim_assert (fun _ ps _ pr => (ps, pr)) cexOps false 0 cexPsi cexPrb
      1 1 ([] : List ℕ) ([0] : List ℕ) ([] : List (List ℕ)) ([0] : List ℕ) 3).2
      rfl |>.2.2⟩⟩

/-- The two noise models accepted by both solvers (`model='gaussian'` or
`'poisson'`). -/
inductive NoiseModel
  | gaussian
  | poisson
deriving DecidableEq, Repr

/-- The per-pixel residual passed to the adjoint operator (`ptycho.py` lines
272/278, `solver.py` lines 157/160), over exact complex numbers:
Gaussian `fpsi - cp.sqrt(data)*cp.exp(1j*cp.angle(fpsi))`,
Poisson `fpsi - data*fpsi/(cp.abs(fpsi)**2 + 1e-32)`. -/
noncomputable def resid (m : NoiseModel) (data : List ℝ) (fpsi : List ℂ) :
    List ℂ :=
  match m with
  | .gaussian => List.zipWith
      (fun dd z => z - (Real.sqrt dd : ℂ) * Complex.exp (Complex.I * (Complex.arg z : ℂ)))
      data fpsi
  | .poisson => List.zipWith
      (fun dd z => z - (dd : ℂ) * z / ((Complex.abs z ^ 2 + 1e-32 : ℝ) : ℂ))
      data fpsi

/-- Model of `cp.max(cp.abs(v))` over exact complex numbers. -/
noncomputable def maxAbs (v : List ℂ) : ℝ := (v.map Complex.abs).foldr max 0

/-- Object gradient as computed (`ptycho.py` lines 270-281):
`adj_ptycho(residual, scan, prb) / (cp.max(cp.abs(prb))**2)`; the adjoint
operator (with `scan` folded in) is an opaque parameter. -/
noncomputable def gradpsi (m : NoiseModel) (data : List ℝ) (fpsi prb : List ℂ)
    (adjOp : List ℂ → List ℂ) : List ℂ :=
  (adjOp (resid m data fpsi)).map (fun z => z / ((maxAbs prb ^ 2 : ℝ) : ℂ))

/-- Object gradient as the spec words it: the adjoint of the residual scaled
by `1/max(|prb|)²`. -/
noncomputable def gradpsiSpec (m : NoiseModel) (data : List ℝ) (fpsi prb : List ℂ)
    (adjOp : List ℂ → List ℂ) : List ℂ :=
  (adjOp (resid m data fpsi)).map (fun z => ((1 / maxAbs prb ^ 2 : ℝ) : ℂ) * z)

/-- Probe gradient as computed (`ptycho.py` lines 300-312):
`adj_ptycho_prb(residual, scan, psi) / cp.max(cp.abs(psi))**2 / self.nscan`. -/
noncomputable def gradprb (m : NoiseModel) (data : List ℝ) (fprb psi : List ℂ)
    (nscan : ℝ) (adjPrbOp : List ℂ → List ℂ) : List ℂ :=
  (adjPrbOp (resid m data fprb)).map
    (fun z => z / ((maxAbs psi ^ 2 : ℝ) : ℂ) / (nscan : ℂ))

/-- Probe gradient as the spec words it: the probe-adjoint of the residual
scaled by `1/(max(|psi|)²·nscan)`. -/
noncomputable def gradprbSpec (m : NoiseModel) (data : List ℝ) (fprb psi : List ℂ)
    (nscan : ℝ) (adjPrbOp : List ℂ → List ℂ) : List ℂ :=
  (adjPrbOp (resid m data fprb)).map
    (fun z => ((1 / (maxAbs psi ^ 2 * nscan) : ℝ) : ℂ) * z)

/-- C5: for both noise models, the object gradient computed by the code is
exactly the adjoint of the residual scaled by `1/max(|prb|)²`, and the probe
gradient is exactly the probe-adjoint of the residual scaled by
`1/(max(|psi|)²·nscan)`. -/
theorem c5_gradient_normalization (m : NoiseModel) (data : List ℝ)
    (fpsi fprb psi prb : List ℂ) (nscan : ℝ)
    (adjOp adjPrbOp : List ℂ → List ℂ) :
    gradpsi m data fpsi prb adjOp = gradpsiSpec m data fpsi prb adjOp
    ∧ gradprb m data fprb psi nscan adjPrbOp
      = gradprbSpec m data fprb psi nscan adjPrbOp := by
  constructor
  · rw [gradpsi, gradpsiSpec]
    refine List.map_congr_left ?_
    intro z _
    push_cast
    ring
  · rw [gradprb, gradprbSpec]
    refine List.map_congr_left ?_
    intro z _
    push_cast
    ring

/-- The argument of every logarithm evaluated by the Poisson loss functional:
`cp.abs(fpsi) + 1e-32` (`ptycho.py` line 258, `solver.py` line 140). -/
noncomputable def poissonLogArg (z : ℂ) : ℝ := Complex.abs z + 1e-32

/-- The Poisson branch of `minf`:
`cp.sum(cp.abs(fpsi)**2 - 2*data*cp.log(cp.abs(fpsi)+1e-32))`; the logarithm
is applied exclusively to `poissonLogArg` values. -/
noncomputable def minfPoisson (data : List ℝ) (fpsi : List ℂ) : ℝ :=
  (List.zipWith (fun dd z => Complex.abs z ^ 2 - 2 * dd * Real.log (poissonLogArg z))
    data fpsi).sum

/-- The Gaussian branch of `minf`:
`cp.linalg.norm(cp.abs(fpsi)-cp.sqrt(data))**2`, i.e. the sum of squared
elementwise differences. -/
noncomputable def minfGaussian (data : List ℝ) (fpsi : List ℂ) : ℝ :=
  (List.zipWith (fun dd z => (Complex.abs z - Real.sqrt dd) ^ 2) data fpsi).sum

/-- C6: every logarithm argument arising while evaluating the Poisson loss
(`minfPoisson` applies `Real.log` only to `poissonLogArg` values) is strictly
positive — in particular for simulated-field entries equal to `0` and for
DiffractionData entries equal to `0`, which do not enter the argument at all
— so the `1e-32` guard keeps the loss away from the logarithm singularity
and evaluation cannot raise. -/
theorem c6_poisson_log_guard (z : ℂ) :
    0 < poissonLogArg z := by
  rw [poissonLogArg]
  have h := Complex.abs.nonneg z
  have h2 : (0 : ℝ) < 1e-32 := by norm_num
  linarith

/-- Read buffer `i` of a host memory.  A memory is a numbered family of numpy
arrays; each buffer is the list of per-view cells of one array, the cells of
one opaque type. -/
def heapRead {α : Type} (h : List (List α)) (i : ℕ) : List α := (h[i]?).getD []

/-- Overwrite buffer `i` of a host memory (numpy in-place assignment). -/
def heapWrite {α : Type} (h : List (List α)) (i : ℕ) (b : List α) :
    List (List α) := h.set i b

/-- One iteration of the batched loop at memory level, writing the returned
slices into the two working buffers `n` (the `psi` copy) and `n + 1` (the
`prb` copy) only: `psi[ids], prb[ids] = result`. -/
def heap_step {α : Type}
    (solve : List α → List α → List α → List α → List α × List α)
    (dId scanId n : ℕ) (acc : List (List α)) (ids : List ℕ) : List (List α) :=
  let r := solve (gather (heapRead acc dId) ids) (gather (heapRead acc n) ids)
    (gather (heapRead acc scanId) ids) (gather (heapRead acc (n + 1)) ids)
  heapWrite (heapWrite acc n (scatter (heapRead acc n) ids r.1))
    (n + 1) (scatter (heapRead acc (n + 1)) ids r.2)

/-- Memory-level model of `run_batch` (`ptycho.py` lines 168-195) and
`cg_ptycho_batch` (`solver.py` lines 211-224): the caller's arrays live in
buffers `dId` (DiffractionData), `psiId` (object), `scanId` (scan positions),
`prbId` (probe) of the memory `h`.  `psi = psi.copy()` and `prb = prb.copy()`
allocate two fresh buffers (indices `h.length` and `h.length + 1`); the
batched loop then reads `data`/`scan` and reads/writes only the two fresh
buffers; the result is the final memory together with the indices of the two
fresh result buffers. -/
def run_batch_heap {α : Type}
    (solve : List α → List α → List α → List α → List α × List α)
    (ntheta ptheta dId psiId scanId prbId : ℕ) (h : List (List α)) :
    List (List α) × ℕ × ℕ :=
  ((batch_ids ntheta ptheta).foldl (heap_step solve dId scanId h.length)
      (h ++ [heapRead h psiId, heapRead h prbId]),
   h.length, h.length + 1)

theorem foldl_set_length {α : Type} (ps : List (ℕ × α)) (l : List α) :
    (ps.foldl (fun acc p => acc.set p.1 p.2) l).length = l.length := by
  induction ps generalizing l with
  | nil => rfl
  | cons p ps ih => rw [List.foldl_cons, ih, List.length_set]

theorem scatter_length {α : Type} (l : List α) (ids : List ℕ) (vals : List α) :
    (scatter l ids vals).length = l.length :=
  foldl_set_length _ _

theorem heapRead_write_self {α : Type} (h : List (List α)) (i : ℕ)
    (b : List α) (hi : i < h.length) : heapRead (heapWrite h i b) i = b := by
  rw [heapRead, heapWrite, List.getElem?_set_self' ]
  simp [List.getElem?_eq_getElem hi]

theorem heapRead_write_ne {α : Type} (h : List (List α)) (i j : ℕ)
    (b : List α) (hij : i ≠ j) : heapRead (heapWrite h i b) j = heapRead h j := by
  rw [heapRead, heapWrite, List.getElem?_set_ne hij]
  rfl

theorem heap_step_foldl_invariant {α : Type}
    (solve : List α → List α → List α → List α → List α × List α)
    (dId scanId n L1 L2 : ℕ) (bs : List (List ℕ)) :
    ∀ acc : List (List α), acc.length = n + 2 →
      (heapRead acc n).length = L1 → (heapRead acc (n + 1)).length = L2 →
      (bs.foldl (heap_step solve dId scanId n) acc).length = n + 2
      ∧ (∀ i, i < n → (bs.foldl (heap_step solve dId scanId n) acc)[i]? = acc[i]?)
      ∧ (heapRead (bs.foldl (heap_step solve dId scanId n) acc) n).length = L1
      ∧ (heapRead (bs.foldl (heap_step solve dId scanId n) acc) (n + 1)).length = L2 := by
  induction bs with
  | nil => exact fun acc h1 h2 h3 => ⟨h1, fun _ _ => rfl, h2, h3⟩
  | cons ids rest ih =>
    intro acc h1 h2 h3
    rw [List.foldl_cons]
    have hn : n < acc.length := by omega
    have hn1 : n + 1 < acc.length := by omega
    have hne : n ≠ n + 1 := by omega
    have e1 : (heap_step solve dId scanId n acc ids).length = n + 2 := by
      rw [heap_step, heapWrite, heapWrite, List.length_set, List.length_set, h1]
    have e2 : ∀ i, i < n → (heap_step solve dId scanId n acc ids)[i]? = acc[i]? := by
      intro i hi
      rw [heap_step, heapWrite, heapWrite,
        List.getElem?_set_ne (by omega : n + 1 ≠ i),
        List.getElem?_set_ne (by omega : n ≠ i)]
    have e3 : (heapRead (heap_step solve dId scanId n acc ids) n).length = L1 := by
      rw [heap_step, heapRead_write_ne _ _ _ _ (by omega : n + 1 ≠ n),
        heapRead_write_self _ _ _ hn, scatter_length, h2]
    have e4 : (heapRead (heap_step solve dId scanId n acc ids) (n + 1)).length = L2 := by
      rw [heap_step,
        heapRead_write_self _ _ _ (by rw [heapWrite, List.length_set]; omega),
        scatter_length, h3]
    obtain ⟨f1, f2, f3, f4⟩ := ih (heap_step solve dId scanId n acc ids) e1 e3 e4
    exact ⟨f1, fun i hi => (f2 i hi).trans (e2 i hi), f3, f4⟩

/-- C9: the batched solve never writes to any caller-supplied buffer: after
the solve, every buffer of the caller's memory holds its original contents
(in particular `data`, `scan`, and the initial `psi`/`prb`); the returned
object and probe live in buffers freshly allocated by `psi.copy()` /
`prb.copy()` (their indices are not indices of any pre-existing buffer); and
the returned buffers have the same number of views as the corresponding
inputs. -/
theorem c9_no_caller_mutation {α : Type}
    (solve : List α → List α → List α → List α → List α × List α)
    (ntheta ptheta dId psiId scanId prbId : ℕ) (h : List (List α)) :
    (∀ i, i < h.length →
      (run_batch_heap solve ntheta ptheta dId psiId scanId prbId h).1[i]? = h[i]?)
    ∧ h.length ≤ (run_batch_heap solve ntheta ptheta dId psiId scanId prbId h).2.1
    ∧ h.length ≤ (run_batch_heap solve ntheta ptheta dId psiId scanId prbId h).2.2
    ∧ (heapRead (run_batch_heap solve ntheta ptheta dId psiId scanId prbId h).1
        (run_batch_heap solve ntheta ptheta dId psiId scanId prbId h).2.1).length
      = (heapRead h psiId).length
    ∧ (heapRead (run_batch_heap solve ntheta ptheta dId psiId scanId prbId h).1
        (run_batch_heap solve ntheta ptheta dId psiId scanId prbId h).2.2).length
      = (heapRead h prbId).length := by
  have hacc : (h ++ [heapRead h psiId, heapRead h prbId]).length = h.length + 2 := by
    rw [List.length_append]
    rfl
  have hr1 : heapRead (h ++ [heapRead h psiId, heapRead h prbId]) h.length
      = heapRead h psiId := by
    rw [heapRead, List.getElem?_append_right (le_refl _)]
    simp
  have hr2 : heapRead (h ++ [heapRead h psiId, heapRead h prbId]) (h.length + 1)
      = heapRead h prbId := by
    rw [heapRead, List.getElem?_append_right (Nat.le_succ _)]
    simp
  obtain ⟨f1, f2, f3, f4⟩ := heap_step_foldl_invariant solve dId scanId h.length
    (heapRead h psiId).length (heapRead h prbId).length
    (batch_ids ntheta ptheta) (h ++ [heapRead h psiId, heapRead h prbId])
    hacc (by rw [hr1]) (by rw [hr2])
  refine ⟨?_, le_refl _, Nat.le_succ _, f3, f4⟩
  intro i hi
  rw [run_batch_heap]
  refine (f2 i hi).trans ?_
  exact List.getElem?_append_left hi

/-- C9 witness: a one-buffer caller memory survives the batched solve
unchanged at its only index. -/
theorem c9_witness :
    0 < ([[true]] : List (List Bool)).length
    ∧ (run_batch_heap (fun _ ps _ pr => (ps, pr)) 1 1 0 0 0 0
        ([[true]] : List (List Bool))).1[0]? = ([[true]] : List (List Bool))[0]? :=
  ⟨by decide,
   (c9_no_caller_mutation (fun _ ps _ pr => (ps, pr)) 1 1 0 0 0 0 [[true]]).1 0
     (by decide)⟩
